import Mathlib

/-!
# Verification of the streaming orchestration layer (`src/server/unified-server.ts`)

Shallow embedding of the core server of the conversational-ai-streaming
repository: the `TTSQueue` phrase aggregator, the client registry and
`broadcast`, the synthesis-worker supervisor (`startTTS` / `restartTTS`,
the stdout `data` handler, the `exit` handler, and the 50ms feed loop),
and the websocket `message` handler for chat requests.

JS strings are modelled as `List Char` so that `trim` (whitespace
stripping at both ends, as in `String.prototype.trim`) is amenable to
proof.  Audio buffers are `List Nat` (byte sequences).  Time is left
implicit: timer-driven callbacks (the 200ms debounce flush, the 1s
backoff spawn, each 50ms feed-loop iteration) appear as explicit
transition functions, and runs of the server are lists of such events.
-/

namespace UnifiedServer

/-- JS strings, as lists of characters. -/
abbrev Str := List Char

/-- Model of `String.prototype.trim`, left half: strip whitespace from the start. -/
def trimStart (s : Str) : Str := s.dropWhile Char.isWhitespace

/-- Model of `String.prototype.trim`, right half: strip whitespace from the end. -/
def trimEnd (s : Str) : Str := (s.reverse.dropWhile Char.isWhitespace).reverse

/-- Model of `String.prototype.trim`: strip whitespace from both ends. -/
def trim (s : Str) : Str := trimEnd (trimStart s)

/-- Model of `class TTSQueue` — the phrase aggregator.  `queue` is the phrase FIFO,
`buffer` the text accumulated since the last flush, `timerArmed` whether
`this.timeout` is non-null (a 200ms debounce flush is pending). -/
structure TTSQueue where
  queue : List Str
  buffer : Str
  timerArmed : Bool
deriving Repr, DecidableEq

/-- Initial state: `queue = []`, `buffer = ''`, `timeout = null`. -/
def TTSQueue.init : TTSQueue := ⟨[], [], false⟩

/-- Source: `add = (text) => \x7b this.buffer += text; clearTimeout; this.timeout = setTimeout(flush, 200) \x7d` -/
def TTSQueue.add (q : TTSQueue) (text : Str) : TTSQueue :=
  { q with buffer := q.buffer ++ text, timerArmed := true }

/-- Source: `flush` pushes `this.buffer.trim()` onto the queue when that trim is
truthy (non-empty) and then sets `this.buffer` to the empty string; in either
case it cancels the debounce timer and nulls the handle.
A JS string is truthy iff non-empty, so the push happens exactly when the
trimmed buffer is non-empty; note the buffer is cleared only inside the
conditional. -/
def TTSQueue.flush (q : TTSQueue) : TTSQueue :=
  if trim q.buffer ≠ [] then
    { queue := q.queue ++ [trim q.buffer], buffer := [], timerArmed := false }
  else
    { q with timerArmed := false }

/-- Source: `next = () => this.queue.shift() || null` -/
def TTSQueue.next (q : TTSQueue) : Option Str × TTSQueue :=
  match q.queue with
  | [] => (none, q)
  | t :: rest => (if t = [] then none else some t, { q with queue := rest })

/-- Source: `isEmpty = () => !this.queue.length` -/
def TTSQueue.isEmpty (q : TTSQueue) : Bool := q.queue.isEmpty

/-- Source: `size = () => this.queue.length` -/
def TTSQueue.size (q : TTSQueue) : Nat := q.queue.length

/-- Source: `clear` runs `this.flush()` and then empties the queue — note the flush
runs first, so unflushed buffered text is first pushed onto the queue and
then discarded together with every queued phrase. -/
def TTSQueue.clear (q : TTSQueue) : TTSQueue :=
  { q.flush with queue := [] }

/-- Buffer after a sequence of `add` calls: the concatenation is appended. -/
theorem TTSQueue.buffer_foldl_add (q : TTSQueue) (ts : List Str) :
    (ts.foldl TTSQueue.add q).buffer = q.buffer ++ ts.flatten := by
  induction ts generalizing q with
  | nil => simp
  | cons t ts ih => simp [ih, TTSQueue.add, List.append_assoc]

/-- Adding text never touches the FIFO. -/
theorem TTSQueue.queue_foldl_add (q : TTSQueue) (ts : List Str) :
    (ts.foldl TTSQueue.add q).queue = q.queue := by
  induction ts generalizing q with
  | nil => rfl
  | cons t ts ih => simp [ih, TTSQueue.add]

theorem dropWhile_append_of_forall {p : Char → Bool} {w t : Str}
    (hw : ∀ c ∈ w, p c) : (w ++ t).dropWhile p = t.dropWhile p := by
  induction w with
  | nil => rfl
  | cons c w ih =>
      have hc : p c = true := hw c (by simp)
      simp only [List.cons_append, List.dropWhile_cons, hc, if_true]
      exact ih (fun c hc => hw c (by simp [hc]))

/-- A residue with empty trim is all whitespace. -/
theorem forall_ws_of_trim_eq_nil {w : Str} (h : trim w = []) :
    ∀ c ∈ w, Char.isWhitespace c := by
  have h2 : (trimStart w).reverse.dropWhile Char.isWhitespace = [] := by
    have h' : trimEnd (trimStart w) = [] := h
    simpa [trimEnd, List.reverse_eq_nil_iff] using h'
  have h3 : ∀ c ∈ trimStart w, Char.isWhitespace c := by
    intro c hc
    exact List.dropWhile_eq_nil_iff.mp h2 c (by simpa using hc)
  have h1 : trimStart w = [] := by
    cases hts : trimStart w with
    | nil => rfl
    | cons c rest =>
        simp only [trimStart] at hts
        have hlen : 0 < (w.dropWhile Char.isWhitespace).length := by simp [hts]
        have hnot := List.dropWhile_get_zero_not (p := Char.isWhitespace) w hlen
        have hcz : (w.dropWhile Char.isWhitespace).get ⟨0, hlen⟩ = c := by
          simp [hts]
        rw [hcz] at hnot
        exact absurd (h3 c (by simp [trimStart, hts])) hnot
  exact List.dropWhile_eq_nil_iff.mp h1

/-- Prepending an all-whitespace residue does not change the trim. -/
theorem trim_append_of_trim_eq_nil {w t : Str} (h : trim w = []) :
    trim (w ++ t) = trim t := by
  have hw := forall_ws_of_trim_eq_nil h
  unfold trim trimStart
  rw [dropWhile_append_of_forall (by simpa using hw)]

/-! ## Clients, `broadcast`, and the stdout `data` handler -/

/-- Model of `type WebSocketClient`, a record of a socket handle `ws` and a string `id`.  The socket handle is
abstracted to a `Nat` tag distinguishing connections. -/
structure WSClient where
  ws : Nat
  id : Str
deriving Repr, DecidableEq

/-- Model of `const broadcast = (data, onError?)`: it does
`clients.forEach`, and for each client tries `client.ws.send(data)`,
catching any throw with `onError?.(client) || clients.delete(client)`.

No call site in the file passes `onError`, and a void `onError` result is
falsy, so a client whose `send` throws is always deleted from the set.
Whether `send` throws is determined by the transport, supplied here as the
predicate `fails` on socket handles.  `Set.forEach` visits every element
in insertion order (only the element under visit is ever deleted), so the
iteration is modelled as a left-to-right pass.  The function returns the
surviving registry together with the list of clients the payload was
actually delivered to; it is total — the `catch` means no failure reaches
the caller. -/
def broadcast (fails : Nat → Bool) : List WSClient → List WSClient × List WSClient
  | [] => ([], [])
  | c :: cs =>
      let r := broadcast fails cs
      if fails c.ws then r else (c :: r.1, c :: r.2)

/-- The surviving registry after a broadcast is exactly the original set
minus the clients whose send failed, in order. -/
theorem broadcast_fst (fails : Nat → Bool) (cs : List WSClient) :
    (broadcast fails cs).1 = cs.filter (fun c => !fails c.ws) := by
  induction cs with
  | nil => rfl
  | cons c cs ih =>
      by_cases h : fails c.ws = true <;> simp [broadcast, h, ih, List.filter_cons]

/-- A broadcast delivers to exactly the clients whose send does not throw. -/
theorem broadcast_snd (fails : Nat → Bool) (cs : List WSClient) :
    (broadcast fails cs).2 = cs.filter (fun c => !fails c.ws) := by
  induction cs with
  | nil => rfl
  | cons c cs ih =>
      by_cases h : fails c.ws = true <;> simp [broadcast, h, ih, List.filter_cons]

/-- Model of the stdout data handler `(pcm: Buffer) => broadcast(pcm)` — one chunk
read from the stdout of the worker is forwarded as a single `broadcast` of the
byte sequence; each delivery carries the chunk verbatim.  Returns the
surviving registry and the per-client deliveries. -/
def onStdoutData (pcm : List Nat) (fails : Nat → Bool) (cs : List WSClient) :
    List WSClient × List (WSClient × List Nat) :=
  let r := broadcast fails cs
  (r.1, r.2.map (fun c => (c, pcm)))

/-- Id generation in `open(ws)`: `const id = Math.random().toString(36).substring(7)`;
the rendered random number is the opaque input `r`, and
`substring(7)` keeps everything from index 7 on. -/
def makeClientId (r : Str) : Str := r.drop 7

/-- The `open` handler: append the freshly built client to the registry
(`clients.add`). -/
def openClient (ws : Nat) (r : Str) (cs : List WSClient) : List WSClient :=
  cs ++ [⟨ws, makeClientId r⟩]

/-- A whole sequence of connections: each pair is
(socket tag, rendered `Math.random().toString(36)` draw). -/
def openRun (conns : List (Nat × Str)) : List WSClient :=
  conns.foldl (fun cs p => openClient p.1 p.2 cs) []

theorem openRun_ids (conns : List (Nat × Str)) :
    (openRun conns).map WSClient.id = conns.map (fun p => makeClientId p.2) := by
  suffices h : ∀ acc, ((conns.foldl (fun cs p => openClient p.1 p.2 cs) acc).map WSClient.id)
      = acc.map WSClient.id ++ conns.map (fun p => makeClientId p.2) by
    simpa [openRun] using h []
  induction conns with
  | nil => simp
  | cons p ps ih =>
      intro acc
      simp only [List.foldl_cons]
      rw [ih]
      simp [openClient]

/-! ## The synthesis supervisor

Module-level mutable state of `unified-server.ts`: `ttsQueue`, `ttsProcess`
and `let restarts = 0`, together with observation instrumentation.
`procAlive` says whether the process `ttsProcess` currently references is
alive (the handle, and its `stdin` object, persist after the process
exits, so the feed-loop guard `ttsProcess?.stdin` stays truthy).
`pendingSpawn` records a pending `setTimeout(() => ttsProcess = startTTS(), 1000)`.
`spawns` counts `startTTS()` invocations, `attempts` counts scheduled
restart attempts (the then-branch of `restartTTS`), `written` the
newline-terminated lines successfully written to the stdin of a live worker in
order, `dropped` the phrases dequeued whose write failed, and
`errorBroadcasts` the number of TTS-unavailable Error events
broadcast. -/
structure ServerState where
  ttsQueue : TTSQueue
  restarts : Nat
  procAlive : Bool
  pendingSpawn : Bool
  spawns : Nat
  attempts : Nat
  written : List Str
  dropped : List Str
  errorBroadcasts : Nat
deriving Repr, DecidableEq

/-- State at module load: `ttsProcess = startTTS()` has run once. -/
def ServerState.init : ServerState :=
  { ttsQueue := TTSQueue.init, restarts := 0, procAlive := true,
    pendingSpawn := false, spawns := 1, attempts := 0,
    written := [], dropped := [], errorBroadcasts := 0 }

/-- Model of `const restartTTS`: when `restarts++ < 5` it schedules
`ttsProcess = startTTS()` behind a 1000ms timeout, else it broadcasts the
TTS-unavailable Error message to all clients.

Note `restarts++ < 5` compares the old value and increments in both branches.
Note the else branch broadcasts the Error event on EVERY invocation past
the bound, not only on the first. -/
def restartTTS (s : ServerState) : ServerState :=
  if s.restarts < 5 then
    { s with restarts := s.restarts + 1, pendingSpawn := true,
             attempts := s.attempts + 1 }
  else
    { s with restarts := s.restarts + 1,
             errorBroadcasts := s.errorBroadcasts + 1 }

/-- Exit handler: `code => code && restartTTS()` — the worker is now
dead; `restartTTS` runs only when `code` is truthy, i.e. a non-zero
number.  a `code` of `none` models the null exit code of a signal-killed
process. -/
def onExit (code : Option Int) (s : ServerState) : ServerState :=
  let s' := { s with procAlive := false }
  match code with
  | some c => if c ≠ 0 then restartTTS s' else s'
  | none => s'

/-- Error handler of the spawned worker: it logs and calls `restartTTS()`. -/
def onProcError (s : ServerState) : ServerState := restartTTS s

/-- The 1s backoff timer fires: `ttsProcess = startTTS()`. -/
def backoffFire (s : ServerState) : ServerState :=
  if s.pendingSpawn then
    { s with procAlive := true, pendingSpawn := false, spawns := s.spawns + 1 }
  else s

/-- One iteration of the 50ms feed loop: when `!ttsQueue.isEmpty()` and
`ttsProcess?.stdin` is truthy (the stdin object of a dead handle still
is), it dequeues with `ttsQueue.next()` and, when the result is truthy,
tries `ttsProcess.stdin.write(text + newline)`, catching a write failure
with `restartTTS()`.

The dequeue happens before the write; a write to the closed stdin of a dead
worker does not deliver the line and its failure path invokes
`restartTTS` — the dequeued phrase is not re-queued. -/
def feedTick (s : ServerState) : ServerState :=
  if s.ttsQueue.isEmpty then s
  else
    let r := s.ttsQueue.next
    let s' := { s with ttsQueue := r.2 }
    match r.1 with
    | none => s'
    | some t =>
        if s'.procAlive then
          { s' with written := s'.written ++ [t ++ ['\n']] }
        else
          restartTTS { s' with dropped := s'.dropped ++ [t] }

/-- Events observable by the supervisor and aggregator state. -/
inductive Ev
  | addEv (t : Str)
  | flushEv
  | clearEv
  | exitEv (code : Option Int)
  | procErrorEv
  | backoffFireEv
  | tickEv
deriving Repr, DecidableEq

def step (e : Ev) (s : ServerState) : ServerState :=
  match e with
  | .addEv t => { s with ttsQueue := s.ttsQueue.add t }
  | .flushEv => { s with ttsQueue := s.ttsQueue.flush }
  | .clearEv => { s with ttsQueue := s.ttsQueue.clear }
  | .exitEv c => onExit c s
  | .procErrorEv => onProcError s
  | .backoffFireEv => backoffFire s
  | .tickEv => feedTick s

def run (evs : List Ev) (s : ServerState) : ServerState :=
  evs.foldl (fun s e => step e s) s

/-- Invariant behind the 5-attempt bound. -/
def InvAttempts (s : ServerState) : Prop :=
  s.attempts ≤ s.restarts ∧ s.attempts ≤ 5

theorem invAttempts_restartTTS {s : ServerState} (h : InvAttempts s) :
    InvAttempts (restartTTS s) := by
  obtain ⟨h1, h2⟩ := h
  unfold restartTTS InvAttempts
  by_cases hr : s.restarts < 5
  · simp only [hr, if_true]
    exact ⟨by omega, by omega⟩
  · simp only [hr, if_false]
    exact ⟨by omega, h2⟩

theorem invAttempts_step {s : ServerState} (e : Ev) (h : InvAttempts s) :
    InvAttempts (step e s) := by
  cases e with
  | addEv t => exact h
  | flushEv => exact h
  | clearEv => exact h
  | exitEv c =>
      cases c with
      | none => exact h
      | some v =>
          by_cases hv : v ≠ 0
          · simpa [step, onExit, hv] using invAttempts_restartTTS (s := { s with procAlive := false }) h
          · simp only [ne_eq, not_not] at hv
            simpa [step, onExit, hv] using h
  | procErrorEv => exact invAttempts_restartTTS h
  | backoffFireEv =>
      unfold step backoffFire
      by_cases hp : s.pendingSpawn = true <;> simp [hp] <;> exact h
  | tickEv =>
      unfold step feedTick
      by_cases he : s.ttsQueue.isEmpty = true
      · simpa [he] using h
      · simp only [he, if_false]
        cases hn : (s.ttsQueue.next).1 with
        | none => exact h
        | some t =>
            by_cases ha : s.procAlive = true
            · simpa [ha] using h
            · simp only [ha]
              simp only [Bool.false_eq_true, if_false]
              exact invAttempts_restartTTS h

theorem invAttempts_run (evs : List Ev) {s : ServerState} (h : InvAttempts s) :
    InvAttempts (run evs s) := by
  induction evs generalizing s with
  | nil => exact h
  | cons e evs ih => exact ih (invAttempts_step e h)

/-! ## The websocket `message` handler for a valid chat request -/

/-- Textual server→consumer events of the chat path. -/
inductive TextEvent
  | chunk (t : Str)
  | complete
deriving Repr, DecidableEq

/-- Model of the increment loop `for await (const text of result.textStream)`:
the body sends a text_chunk event via `ws.send` and calls `ttsQueue.add(text)` —
it sends each increment to the REQUESTING socket `ws` only (no
`broadcast`) and feeds the aggregator.  Deliveries are (socket tag, event)
pairs in send order. -/
def chatLoop (requester : Nat) : List Str → TTSQueue → TTSQueue × List (Nat × TextEvent)
  | [], q => (q, [])
  | t :: ts, q =>
      let r := chatLoop requester ts (q.add t)
      (r.1, (requester, TextEvent.chunk t) :: r.2)

/-- The handler for a valid chat message: `ttsQueue.clear()`, then the
increment loop, then `ttsQueue.flush()` and a text_complete event via
`ws.send` — again to the requesting socket only. -/
def handleChat (requester : Nat) (ts : List Str) (q : TTSQueue) :
    TTSQueue × List (Nat × TextEvent) :=
  let r := chatLoop requester ts q.clear
  (r.1.flush, r.2 ++ [(requester, TextEvent.complete)])

theorem chatLoop_fst (requester : Nat) (ts : List Str) (q : TTSQueue) :
    (chatLoop requester ts q).1 = ts.foldl TTSQueue.add q := by
  induction ts generalizing q with
  | nil => rfl
  | cons t ts ih => simp [chatLoop, ih]

theorem chatLoop_snd (requester : Nat) (ts : List Str) (q : TTSQueue) :
    (chatLoop requester ts q).2 = ts.map (fun t => (requester, TextEvent.chunk t)) := by
  induction ts generalizing q with
  | nil => rfl
  | cons t ts ih => simp [chatLoop, ih]

/-- Emission of one aggregation round: phrases appended by
`flush ∘ foldl add`. -/
theorem flush_foldl_add_queue (q : TTSQueue) (ts : List Str) :
    ((ts.foldl TTSQueue.add q).flush).queue
      = q.queue ++ (if trim (q.buffer ++ ts.flatten) = []
                    then [] else [trim (q.buffer ++ ts.flatten)]) := by
  unfold TTSQueue.flush
  rw [TTSQueue.buffer_foldl_add, TTSQueue.queue_foldl_add]
  by_cases h : trim (q.buffer ++ ts.flatten) = []
  · simp [h]
  · simp [h]

/-- A flush always disarms the debounce timer. -/
theorem flush_timerArmed (q : TTSQueue) : (q.flush).timerArmed = false := by
  unfold TTSQueue.flush
  split <;> rfl

/-- Iterated feed-loop ticks. -/
def ticks : Nat → ServerState → ServerState
  | 0, s => s
  | n + 1, s => ticks n (feedTick s)

/-- While the worker is alive, `ps.length` feed-loop iterations dequeue the
whole FIFO and write each phrase newline-terminated, in order. -/
theorem ticks_write_all (ps : List Str) (s : ServerState)
    (halive : s.procAlive = true) (hq : s.ttsQueue.queue = ps)
    (hne : ∀ p ∈ ps, p ≠ []) :
    (ticks ps.length s).ttsQueue.queue = [] ∧
    (ticks ps.length s).written = s.written ++ ps.map (fun p => p ++ ['\n']) ∧
    (ticks ps.length s).procAlive = true := by
  induction ps generalizing s with
  | nil => simp [ticks, hq, halive]
  | cons p rest ih =>
      have hp : p ≠ [] := hne p (by simp)
      have hie : s.ttsQueue.isEmpty = false := by simp [TTSQueue.isEmpty, hq]
      have hnext : s.ttsQueue.next = (some p, { s.ttsQueue with queue := rest }) := by
        simp [TTSQueue.next, hq, hp]
      have hstep : feedTick s =
          { s with ttsQueue := { s.ttsQueue with queue := rest },
                   written := s.written ++ [p ++ ['\n']] } := by
        unfold feedTick
        simp [hie, hnext, halive]
      have h2 := ih { s with ttsQueue := { s.ttsQueue with queue := rest },
                             written := s.written ++ [p ++ ['\n']] }
        halive rfl (fun x hx => hne x (List.mem_cons_of_mem _ hx))
      simp only [List.length_cons, ticks, hstep]
      refine ⟨h2.1, ?_, h2.2.2⟩
      rw [h2.2.1]
      simp

/-- Restarting never touches the phrase FIFO. -/
theorem restartTTS_ttsQueue (s : ServerState) : (restartTTS s).ttsQueue = s.ttsQueue := by
  unfold restartTTS
  split <;> rfl

/-! ## Claim theorems -/

/-- C5 counterexample: the claim demands, for ANY add sequence within one
quiet period followed by a flush, exactly one emitted phrase equal to the
trimmed concatenation.  For `add(" ")` followed by the flush the code
emits NO phrase (`if (this.buffer.trim())` is false on a whitespace-only
buffer), so zero phrases are emitted instead of the claimed one. -/
theorem C5_counterexample :
    ((TTSQueue.init.add [' ']).flush).queue = [] ∧
    ((TTSQueue.init.add [' ']).flush).queue.length ≠ 1 := by
  constructor <;> decide

/-- C5 (amended): starting from an empty buffer, any sequence of `add`
calls within one quiet period followed by the (timer or explicit) flush
emits exactly one phrase — the trimmed concatenation of the added texts —
when that trim is non-empty, and emits no phrase when the concatenation is
all whitespace; afterwards no debounce timer remains armed. -/
theorem C5_quiet_period_aggregation (q : TTSQueue) (ts : List Str)
    (hb : q.buffer = []) :
    ((ts.foldl TTSQueue.add q).flush).queue
      = q.queue ++ (if trim ts.flatten = [] then [] else [trim ts.flatten]) ∧
    ((ts.foldl TTSQueue.add q).flush).timerArmed = false := by
  constructor
  · rw [flush_foldl_add_queue, hb]
    simp
  · exact flush_timerArmed _

/-- C5 witness: `add("hi")` then flush emits exactly the phrase `"hi"`. -/
theorem C5_witness :
    ((["hi".toList].foldl TTSQueue.add TTSQueue.init).flush).queue = ["hi".toList] ∧
    ((["hi".toList].foldl TTSQueue.add TTSQueue.init).flush).timerArmed = false := by
  have h := C5_quiet_period_aggregation TTSQueue.init ["hi".toList] rfl
  refine ⟨?_, h.2⟩
  rw [h.1]
  decide

/-- C6 (confirmed): handling a new valid chat request runs
`ttsQueue.clear()` first: the FIFO is emptied, the leftover buffer trims
to nothing, and the phrases the handler leaves in the FIFO afterwards are
a function of the new increments alone — text buffered but unflushed at
request start never appears in a later dispatched phrase. -/
theorem C6_clear_discards_previous_text (r : Nat) (q : TTSQueue) (ts : List Str) :
    (q.clear).queue = [] ∧
    trim (q.clear).buffer = [] ∧
    (handleChat r ts q).1.queue
      = (if trim ts.flatten = [] then [] else [trim ts.flatten]) := by
  have hcq : (q.clear).queue = [] := rfl
  have hcb : trim (q.clear).buffer = [] := by
    unfold TTSQueue.clear TTSQueue.flush
    by_cases h : trim q.buffer = []
    · simp [h]
    · simp only [h, ne_eq, not_false_iff, if_true]
      decide
  refine ⟨hcq, hcb, ?_⟩
  show ((chatLoop r ts q.clear).1.flush).queue = _
  rw [chatLoop_fst, flush_foldl_add_queue, trim_append_of_trim_eq_nil hcb, hcq]
  simp

/-- C7 counterexample: nothing in the code constrains the size of a chunk
read from the stdout of the worker; a 3-byte chunk is forwarded verbatim, so a
consumer receives a binary payload whose length is not a multiple of 4. -/
theorem C7_counterexample :
    (onStdoutData [1, 2, 3] (fun _ => false) [⟨0, []⟩]).2
      = [(⟨0, []⟩, [1, 2, 3])] ∧
    ¬ ((3 : Nat) % 4 = 0) := by
  constructor <;> decide

/-- C7 (amended): the broadcast layer never splits or merges a frame —
every payload delivered by the stdout handler is the chunk verbatim — and
hence the delivered length is a multiple of 4 exactly when the chunk read
from the worker is; the code itself does not enforce the divisibility. -/
theorem C7_frames_forwarded_verbatim (pcm : List Nat) (fails : Nat → Bool)
    (cs : List WSClient) :
    (∀ d ∈ (onStdoutData pcm fails cs).2, d.2 = pcm) ∧
    (pcm.length % 4 = 0 →
      ∀ d ∈ (onStdoutData pcm fails cs).2, d.2.length % 4 = 0) := by
  have hv : ∀ d ∈ (onStdoutData pcm fails cs).2, d.2 = pcm := by
    intro d hd
    unfold onStdoutData at hd
    obtain ⟨c, _, rfl⟩ := List.mem_map.mp hd
    rfl
  refine ⟨hv, ?_⟩
  intro h4 d hd
  rw [hv d hd]
  exact h4

/-- C7 witness: a 4-byte chunk delivered to a connected consumer keeps its
length divisible by 4. -/
theorem C7_witness :
    (((⟨0, []⟩ : WSClient), ([5, 6, 7, 8] : List Nat)).2).length % 4 = 0 :=
  (C7_frames_forwarded_verbatim [5, 6, 7, 8] (fun _ => false) [⟨0, []⟩]).2
    (by decide) (⟨0, []⟩, [5, 6, 7, 8]) (by decide)

/-- C8 (confirmed): a consumer whose send throws is removed from the
registry, the broadcast function returns normally (the `catch` swallows
the failure, so nothing reaches the caller or the other consumers), the
payload is delivered to exactly the surviving consumers, and a subsequent
broadcast reaches exactly those survivors. -/
theorem C8_failure_isolation (fails : Nat → Bool) (cs : List WSClient) :
    (broadcast fails cs).1 = cs.filter (fun c => !fails c.ws) ∧
    (broadcast fails cs).2 = cs.filter (fun c => !fails c.ws) ∧
    (∀ c ∈ cs, fails c.ws = true → c ∉ (broadcast fails cs).1) ∧
    (broadcast (fun _ => false) (broadcast fails cs).1).2 = (broadcast fails cs).1 := by
  refine ⟨broadcast_fst _ _, broadcast_snd _ _, ?_, ?_⟩
  · intro c _ hf hmem
    rw [broadcast_fst] at hmem
    have := (List.mem_filter.mp hmem).2
    simp [hf] at this
  · rw [broadcast_snd]
    simp

/-- C8 witness: with consumers 0 and 1 where the send to consumer 1 throws,
consumer 1 is removed, and a second broadcast reaches exactly consumer 0. -/
theorem C8_witness :
    (⟨1, []⟩ : WSClient) ∉ (broadcast (fun w => w == 1) [⟨0, []⟩, ⟨1, []⟩]).1 ∧
    (broadcast (fun _ => false) (broadcast (fun w => w == 1) [⟨0, []⟩, ⟨1, []⟩]).1).2
      = (broadcast (fun w => w == 1) [⟨0, []⟩, ⟨1, []⟩]).1 := by
  have h := C8_failure_isolation (fun w => w == 1) [⟨0, []⟩, ⟨1, []⟩]
  exact ⟨h.2.2.1 ⟨1, []⟩ (by decide) (by decide), h.2.2.2⟩

/-- C9 counterexample: ids come from
`Math.random().toString(36).substring(7)`; the draw `0.5` renders as
`"0.i"`, whose `substring(7)` is the empty string, so two connections
whose draws both render as `"0.i"` are two live consumers sharing one
identifier. -/
theorem C9_counterexample :
    (openRun [(0, "0.i".toList), (1, "0.i".toList)]).map WSClient.id = [[], []] ∧
    (openRun [(0, "0.i".toList), (1, "0.i".toList)]).map WSClient.ws = [0, 1] := by
  constructor <;> decide

/-- C9 (amended): each consumer id is the deterministic suffix (drop the
first 7 characters) of the rendered random draw of that connection, so the ids
of a run of connections are pairwise distinct iff those suffixes are —
nothing in the code enforces uniqueness or prevents reuse. -/
theorem C9_ids_from_random_draws (conns : List (Nat × Str)) :
    (openRun conns).map WSClient.id = conns.map (fun p => p.2.drop 7) ∧
    (((openRun conns).map WSClient.id).Nodup
      ↔ (conns.map (fun p => p.2.drop 7)).Nodup) := by
  have h := openRun_ids conns
  have h' : (openRun conns).map WSClient.id = conns.map (fun p => p.2.drop 7) := by
    rw [h]; rfl
  exact ⟨h', by rw [h']⟩

/-- C10 (confirmed): the exit handler is `code => code && restartTTS()`;
a `0` or `null` exit code is falsy, so the supervisor records nothing, no
backoff spawn is scheduled, no restart attempt is counted, and no Error
event is broadcast — the only change is that the worker is now dead, and
the audio path stays silently degraded. -/
theorem C10_falsy_exit_code_no_restart (s : ServerState) :
    onExit (some 0) s = { s with procAlive := false } ∧
    onExit none s = { s with procAlive := false } := by
  constructor
  · simp [onExit]
  · rfl

/-- C1 counterexample: the chat handler sends `text_chunk` and
`text_complete` with `ws.send(...)` — the requesting socket only, never
`broadcast` — so with sockets 0 and 1 both registered and socket 0
requesting, consumer 1 receives neither the TextDelta nor the
TextComplete event, refuting delivery "to every registered consumer". -/
theorem C1_counterexample :
    (handleChat 0 ["hi".toList] TTSQueue.init).2
      = [(0, TextEvent.chunk "hi".toList), (0, TextEvent.complete)] ∧
    (1, TextEvent.chunk "hi".toList) ∉ (handleChat 0 ["hi".toList] TTSQueue.init).2 ∧
    (1, TextEvent.complete) ∉ (handleChat 0 ["hi".toList] TTSQueue.init).2 := by
  refine ⟨?_, ?_, ?_⟩ <;> decide

/-- C1 (amended): every textual event of a chat request — one TextDelta
per increment, in stream order, then TextComplete — is sent to the
requesting consumer only; the events all registered consumers do receive
identical copies of are the broadcast audio frames (and broadcast
errors). -/
theorem C1_text_events_requester_only (requester : Nat) (ts : List Str)
    (q : TTSQueue) (pcm : List Nat) (cs : List WSClient) :
    (handleChat requester ts q).2
      = ts.map (fun t => (requester, TextEvent.chunk t))
          ++ [(requester, TextEvent.complete)] ∧
    (∀ d ∈ (handleChat requester ts q).2, d.1 = requester) ∧
    (onStdoutData pcm (fun _ => false) cs).2 = cs.map (fun c => (c, pcm)) := by
  have h1 : (handleChat requester ts q).2
      = ts.map (fun t => (requester, TextEvent.chunk t))
          ++ [(requester, TextEvent.complete)] := by
    show (chatLoop requester ts q.clear).2 ++ _ = _
    rw [chatLoop_snd]
  refine ⟨h1, ?_, ?_⟩
  · intro d hd
    rw [h1] at hd
    rcases List.mem_append.mp hd with h | h
    · obtain ⟨t, _, rfl⟩ := List.mem_map.mp h
      rfl
    · simp only [List.mem_singleton] at h
      rw [h]
  · show List.map (fun c => (c, pcm)) (broadcast (fun _ => false) cs).2
        = cs.map (fun c => (c, pcm))
    rw [broadcast_snd]
    simp

/-- C1 witness: the closing TextComplete of a concrete request is
addressed to the requesting socket. -/
theorem C1_witness : ((0 : Nat), TextEvent.complete).1 = 0 :=
  (C1_text_events_requester_only 0 ["hi".toList] TTSQueue.init [] []).2.1
    (0, TextEvent.complete) (by decide)

/-- C2 counterexample: the 6th consecutive failed (re)start broadcasts the
Error event (`errorBroadcasts = 1`), but a 7th crash or failed write runs
the else branch of `restartTTS` again and broadcasts ANOTHER Error event
(`errorBroadcasts = 2`), refuting "no further Error event for the life of
the server process". -/
theorem C2_counterexample :
    (restartTTS (restartTTS (restartTTS (restartTTS (restartTTS (restartTTS
      ServerState.init)))))).errorBroadcasts = 1 ∧
    (restartTTS (restartTTS (restartTTS (restartTTS (restartTTS (restartTTS (restartTTS
      ServerState.init))))))).errorBroadcasts = 2 := by
  constructor <;> decide

/-- C2 (amended): restart attempts are bounded — along any event run from
the initial state at most 5 restart attempts are ever scheduled — and
once `restarts` has reached 5 a further `restartTTS` invocation schedules
no spawn and counts no attempt, but it DOES broadcast one more Error
event on every such invocation (the Error is per-invocation, not
once-only). -/
theorem C2_bounded_restarts (evs : List Ev) (s : ServerState)
    (h5 : 5 ≤ s.restarts) :
    (run evs ServerState.init).attempts ≤ 5 ∧
    (restartTTS s).pendingSpawn = s.pendingSpawn ∧
    (restartTTS s).spawns = s.spawns ∧
    (restartTTS s).attempts = s.attempts ∧
    (restartTTS s).errorBroadcasts = s.errorBroadcasts + 1 := by
  have hinit : InvAttempts ServerState.init := ⟨by decide, by decide⟩
  have hnotlt : ¬ s.restarts < 5 := by omega
  refine ⟨(invAttempts_run evs hinit).2, ?_, ?_, ?_, ?_⟩ <;>
    simp [restartTTS, hnotlt]

/-- C2 witness: after one crash the attempt count is within the bound, and
an exhausted supervisor (restart counter at 5) broadcasts one more Error
on its next invocation. -/
theorem C2_witness :
    (run [Ev.procErrorEv] ServerState.init).attempts ≤ 5 ∧
    (restartTTS { ServerState.init with restarts := 5 }).errorBroadcasts
      = { ServerState.init with restarts := 5 }.errorBroadcasts + 1 := by
  have h := C2_bounded_restarts [Ev.procErrorEv]
    { ServerState.init with restarts := 5 } (by decide)
  exact ⟨h.1, h.2.2.2.2⟩

/-- C3 counterexample: phrase `"hi"` is flushed into the FIFO, the worker
crashes (exit code 1), and a feed-loop tick fires during the 1s backoff
while `ttsProcess` still references the dead process: the phrase is
dequeued, its write fails, and it is never re-queued.  After the fresh
worker is up (`backoffFire`) and further ticks run, nothing has been
written: the phrase was lost, refuting at-least-once delivery across
restarts. -/
theorem C3_counterexample :
    (run [Ev.addEv "hi".toList, Ev.flushEv, Ev.exitEv (some 1), Ev.tickEv,
          Ev.backoffFireEv, Ev.tickEv, Ev.tickEv] ServerState.init).written = [] ∧
    (run [Ev.addEv "hi".toList, Ev.flushEv, Ev.exitEv (some 1), Ev.tickEv,
          Ev.backoffFireEv, Ev.tickEv, Ev.tickEv] ServerState.init).dropped
      = ["hi".toList] ∧
    (run [Ev.addEv "hi".toList, Ev.flushEv, Ev.exitEv (some 1), Ev.tickEv,
          Ev.backoffFireEv, Ev.tickEv, Ev.tickEv] ServerState.init).ttsQueue.queue
      = [] ∧
    (run [Ev.addEv "hi".toList, Ev.flushEv, Ev.exitEv (some 1), Ev.tickEv,
          Ev.backoffFireEv, Ev.tickEv, Ev.tickEv] ServerState.init).procAlive
      = true := by
  refine ⟨?_, ?_, ?_, ?_⟩ <;> decide

/-- C3 (amended): the crash/restart transitions themselves never remove a
phrase from the FIFO (`exit`, `error`, `restartTTS` and the backoff spawn
all leave the queue untouched), and every phrase still in the FIFO while
the worker is alive is dequeued and written newline-terminated in order;
but a phrase dequeued by a feed-loop tick while the worker handle is dead
is dropped without requeue, so at-least-once delivery holds only for the
phrases still queued when the fresh worker is installed. -/
theorem C3_fifo_preserved_by_restart (s : ServerState) (c : Option Int)
    (ps : List Str) (halive : s.procAlive = true)
    (hq : s.ttsQueue.queue = ps) (hne : ∀ p ∈ ps, p ≠ []) :
    (onExit c s).ttsQueue = s.ttsQueue ∧
    (onProcError s).ttsQueue = s.ttsQueue ∧
    (restartTTS s).ttsQueue = s.ttsQueue ∧
    (backoffFire s).ttsQueue = s.ttsQueue ∧
    (ticks ps.length s).written = s.written ++ ps.map (fun p => p ++ ['\n']) := by
  refine ⟨?_, ?_, restartTTS_ttsQueue s, ?_, (ticks_write_all ps s halive hq hne).2.1⟩
  · unfold onExit
    cases c with
    | none => rfl
    | some v =>
        show (if v ≠ 0 then restartTTS { s with procAlive := false }
              else { s with procAlive := false }).ttsQueue = s.ttsQueue
        by_cases hv : v ≠ 0
        · rw [if_pos hv, restartTTS_ttsQueue]
        · rw [if_neg hv]
  · unfold onProcError
    exact restartTTS_ttsQueue s
  · unfold backoffFire
    split <;> rfl

/-- C3 witness: a single live-worker tick writes the one queued phrase,
newline-terminated. -/
theorem C3_witness :
    (ticks (["hi".toList]).length
        { ServerState.init with ttsQueue := ⟨["hi".toList], [], false⟩ }).written
      = { ServerState.init with ttsQueue := ⟨["hi".toList], [], false⟩ }.written
          ++ (["hi".toList]).map (fun p => p ++ ['\n']) :=
  (C3_fifo_preserved_by_restart
    { ServerState.init with ttsQueue := ⟨["hi".toList], [], false⟩ }
    none ["hi".toList] rfl rfl (by decide)).2.2.2.2

/-- C4 counterexample: an external kill delivers an exit event with a
`null` exit code; `code && restartTTS()` is falsy, so the supervisor
schedules no backoff spawn and counts no restart attempt — the queued
phrase sits in the FIFO with the worker permanently dead, refuting
"waits the fixed 1-second backoff delay, spawns a fresh worker, and
resumes dequeuing". -/
theorem C4_counterexample :
    run [Ev.addEv "hi".toList, Ev.flushEv, Ev.exitEv none] ServerState.init
      = { ServerState.init with
            ttsQueue := ⟨["hi".toList], [], false⟩,
            procAlive := false } := by
  decide

/-- C4 (amended): when the worker dies with a NON-ZERO exit code and the
restart bound is not reached, the supervisor schedules the backoff spawn,
the restart counter increments, the FIFO is untouched, the fired backoff
timer installs a live worker, and the phrases still in the FIFO are then
dequeued and written newline-terminated in order; a signal kill (`null`
code) triggers none of this. -/
theorem C4_restart_on_nonzero_exit (s : ServerState) (c : Int) (ps : List Str)
    (hc : c ≠ 0) (h5 : s.restarts < 5) (hq : s.ttsQueue.queue = ps)
    (hne : ∀ p ∈ ps, p ≠ []) :
    (onExit (some c) s).pendingSpawn = true ∧
    (onExit (some c) s).restarts = s.restarts + 1 ∧
    (onExit (some c) s).ttsQueue = s.ttsQueue ∧
    (backoffFire (onExit (some c) s)).procAlive = true ∧
    (backoffFire (onExit (some c) s)).spawns = s.spawns + 1 ∧
    (backoffFire (onExit (some c) s)).ttsQueue = s.ttsQueue ∧
    (ticks ps.length (backoffFire (onExit (some c) s))).written
      = s.written ++ ps.map (fun p => p ++ ['\n']) := by
  have e1 : onExit (some c) s
      = { s with procAlive := false, restarts := s.restarts + 1,
                 pendingSpawn := true, attempts := s.attempts + 1 } := by
    unfold onExit restartTTS
    simp [hc, h5]
  have e2 : backoffFire (onExit (some c) s)
      = { s with procAlive := true, restarts := s.restarts + 1,
                 pendingSpawn := false, spawns := s.spawns + 1,
                 attempts := s.attempts + 1 } := by
    rw [e1]
    unfold backoffFire
    rfl
  refine ⟨by rw [e1], by rw [e1], by rw [e1], by rw [e2], by rw [e2], by rw [e2], ?_⟩
  have := ticks_write_all ps
    { s with procAlive := true, restarts := s.restarts + 1,
             pendingSpawn := false, spawns := s.spawns + 1,
             attempts := s.attempts + 1 }
    rfl (by simpa using hq) hne
  rw [e2]
  exact this.2.1

/-- C4 witness: a worker death with exit code 1 while one phrase is queued
leads, after the backoff spawn, to that phrase being written to the fresh
worker. -/
theorem C4_witness :
    (onExit (some 1)
        { ServerState.init with ttsQueue := ⟨["hi".toList], [], false⟩ }).pendingSpawn
      = true ∧
    (ticks (["hi".toList]).length
        (backoffFire (onExit (some 1)
          { ServerState.init with ttsQueue := ⟨["hi".toList], [], false⟩ }))).written
      = { ServerState.init with ttsQueue := ⟨["hi".toList], [], false⟩ }.written
          ++ (["hi".toList]).map (fun p => p ++ ['\n']) := by
  have h := C4_restart_on_nonzero_exit
    { ServerState.init with ttsQueue := ⟨["hi".toList], [], false⟩ }
    1 ["hi".toList] (by decide) (by decide) rfl (by decide)
  exact ⟨h.1, h.2.2.2.2.2.2⟩

end UnifiedServer
